import Mathlib

/-!
Verification of `tinyconf` (src/tinyconf.py), a minimal curses line editor.

The editor state (`TinyconfEditor.__init__`, lines 12-28) and its operations
(`draw`, `insert`, `backspace`, `newline`, `move_cursor`, `save_file`,
`prompt_save`, `handle_command`, `main`) are embedded shallowly below.
Coordinates and key codes are `Int` (Python integers); lines are `List Char`;
the buffer is `List (List Char)`.  Buffer indexing uses `List.getD` at the
`Int.toNat` of the index: the proven invariants keep every index in
`[0, len)`, the only range on which this agrees with Python list indexing
(a negative or overlarge index in Python would wrap or raise, which the
spec's error policy classifies as a contract violation).
-/

namespace Tinyconf

/-! ### Text model: Python `str.splitlines` and `"\n".join` -/

/-- Line-break characters recognised by Python `str.splitlines`:
`\n`, `\r`, `\v`, `\f`, `\x1c`, `\x1d`, `\x1e`, `\x85`, U+2028, U+2029
(the pair `\r\n` counts as a single break, handled by `normCRLF`). -/
def isLineBreak (c : Char) : Bool :=
  c = '\n' || c = '\r' || c = '\x0b' || c = '\x0c' ||
  c = '\x1c' || c = '\x1d' || c = '\x1e' || c = '\x85' ||
  c.val = 0x2028 || c.val = 0x2029

/-- Collapse each `\r\n` pair into the single break `\r`, so that
`splitBreaks` can treat every break character uniformly.  Together with
`splitBreaks` this models Python `str.splitlines` (used at line 28). -/
def normCRLF : List Char → List Char
  | [] => []
  | [c] => [c]
  | c :: d :: cs =>
    if c = '\r' ∧ d = '\n' then '\r' :: normCRLF cs
    else c :: normCRLF (d :: cs)

/-- Split at break characters; breaks are not kept, and a trailing break
does not produce a trailing empty line (Python `str.splitlines`). -/
def splitBreaks : List Char → List (List Char)
  | [] => []
  | c :: cs =>
    if isLineBreak c then [] :: splitBreaks cs
    else
      match splitBreaks cs with
      | [] => [[c]]
      | l :: ls => (c :: l) :: ls

/-- Python `str.splitlines` on a character list. -/
def pySplitlines (s : List Char) : List (List Char) :=
  splitBreaks (normCRLF s)

/-- Python `"\n".join(buffer)`: the exact payload `save_file` writes
(line 145); a single separator between lines, no trailing terminator. -/
def joinLines : List (List Char) → List Char
  | [] => []
  | [l] => l
  | l :: l' :: ls => l ++ '\n' :: joinLines (l' :: ls)

/-- Loading file content (line 28): `f.read().splitlines() or [""]` —
`splitlines`, with the empty result replaced by a single empty line. -/
def loadLines (cs : List Char) : List (List Char) :=
  let ls := pySplitlines cs
  if ls = [] then [[]] else ls

theorem normCRLF_of_not_mem_cr : ∀ s : List Char, '\r' ∉ s → normCRLF s = s
  | [], _ => rfl
  | [_], _ => rfl
  | c :: d :: cs, h => by
    have hc : c ≠ '\r' := fun hc => h (hc ▸ List.mem_cons_self c _)
    rw [normCRLF, if_neg (fun hp => hc hp.1),
      normCRLF_of_not_mem_cr (d :: cs) (fun hm => h (List.mem_cons_of_mem c hm))]

theorem splitBreaks_break_free :
    ∀ l : List Char, (∀ c ∈ l, isLineBreak c = false) →
      splitBreaks l = if l = [] then [] else [l] := by
  intro l hl
  induction l with
  | nil => rfl
  | cons c cs ih =>
    have hc : isLineBreak c = false := hl c (List.mem_cons_self c cs)
    have hcs := ih (fun x hx => hl x (List.mem_cons_of_mem c hx))
    rw [splitBreaks, hc]
    simp only [Bool.false_eq_true, if_false]
    rcases Decidable.em (cs = []) with h | h
    · subst h; rfl
    · rw [hcs, if_neg h]; simp

theorem splitBreaks_append_newline :
    ∀ l cs : List Char, (∀ c ∈ l, isLineBreak c = false) →
      splitBreaks (l ++ '\n' :: cs) = l :: splitBreaks cs := by
  intro l
  induction l with
  | nil =>
    intro cs _
    rw [List.nil_append, splitBreaks]
    norm_num [isLineBreak]
  | cons c l' ih =>
    intro cs hl
    have hc : isLineBreak c = false := hl c (List.mem_cons_self c l')
    rw [List.cons_append, splitBreaks, hc]
    simp only [Bool.false_eq_true, if_false]
    rw [ih cs (fun x hx => hl x (List.mem_cons_of_mem c hx))]

theorem cr_not_mem_joinLines :
    ∀ b : List (List Char), (∀ l ∈ b, ∀ c ∈ l, isLineBreak c = false) →
      '\r' ∉ joinLines b
  | [], _ => by simp [joinLines]
  | [l], h => by
    simp only [joinLines]
    intro hm
    have := h l (List.mem_cons_self l []) '\r' hm
    simp [isLineBreak] at this
  | l :: l' :: ls, h => by
    rw [joinLines]
    intro hm
    rcases List.mem_append.mp hm with hm | hm
    · have := h l (List.mem_cons_self l _) '\r' hm
      simp [isLineBreak] at this
    · rcases List.mem_cons.mp hm with hm | hm
      · exact absurd hm.symm (by decide)
      · exact cr_not_mem_joinLines (l' :: ls)
          (fun x hx => h x (List.mem_cons_of_mem l hx)) hm

theorem cr_not_mem_of_break_free {l : List Char}
    (h : ∀ c ∈ l, isLineBreak c = false) : '\r' ∉ l := fun hm => by
  have := h '\r' hm
  simp [isLineBreak] at this

/-- Claim C5 (amended): `save` (write `"\n".join(buffer)`, line 145) followed
by `load` (`splitlines() or [""]`, line 28) reproduces the exact line
sequence for every non-empty buffer whose lines contain no embedded line
terminator, provided the buffer is the single empty line or its final line
is non-empty.  (A trailing empty line is dropped by the round trip, see the
counterexample.) -/
theorem save_load_roundtrip :
    ∀ b : List (List Char), b ≠ [] →
      (∀ l ∈ b, ∀ c ∈ l, isLineBreak c = false) →
      (b = [[]] ∨ b.getLast? ≠ some []) →
      loadLines (joinLines b) = b
  | [], hne, _, _ => absurd rfl hne
  | [l], _, hfree, hlast => by
    have hl : ∀ c ∈ l, isLineBreak c = false :=
      hfree l (List.mem_cons_self l [])
    have hcr : '\r' ∉ l := cr_not_mem_of_break_free hl
    show loadLines (joinLines [l]) = [l]
    rw [joinLines, loadLines]
    simp only [pySplitlines, normCRLF_of_not_mem_cr l hcr,
      splitBreaks_break_free l hl]
    rcases Decidable.em (l = []) with h | h
    · subst h; rfl
    · rw [if_neg h]
      simp [h]
  | l :: l' :: ls, _, hfree, hlast => by
    have hb2 : (l :: l' :: ls) ≠ [[]] := by simp
    have hlast' : (l' :: ls).getLast? ≠ some [] := by
      rcases hlast with h | h
      · exact absurd h hb2
      · rwa [List.getLast?_cons_cons] at h
    have hfree' : ∀ x ∈ l' :: ls, ∀ c ∈ x, isLineBreak c = false :=
      fun x hx => hfree x (List.mem_cons_of_mem l hx)
    have ih := save_load_roundtrip (l' :: ls) (by simp) hfree' (Or.inr hlast')
    have hcr : '\r' ∉ joinLines (l :: l' :: ls) :=
      cr_not_mem_joinLines (l :: l' :: ls) hfree
    have hsplit : pySplitlines (joinLines (l :: l' :: ls)) =
        l :: splitBreaks (normCRLF (joinLines (l' :: ls))) := by
      rw [pySplitlines, normCRLF_of_not_mem_cr _ hcr, joinLines,
        splitBreaks_append_newline l _ (hfree l (List.mem_cons_self l _)),
        normCRLF_of_not_mem_cr (joinLines (l' :: ls))
          (cr_not_mem_joinLines (l' :: ls) hfree')]
    have htail : splitBreaks (normCRLF (joinLines (l' :: ls))) = l' :: ls := by
      rw [loadLines] at ih
      rcases Decidable.em (pySplitlines (joinLines (l' :: ls)) = []) with h | h
      · rw [pySplitlines] at h
        simp only [pySplitlines, h, if_pos] at ih
        exact absurd (ih ▸ rfl : (l' :: ls).getLast? = some []) hlast'
      · rw [pySplitlines] at h
        simpa [pySplitlines, h] using ih
    rw [loadLines, hsplit, htail]
    simp

/-- Claim C5 (counterexample): on the buffer `["a", ""]` — no line contains a
terminator — the save/load round trip drops the trailing empty line. -/
theorem roundtrip_drops_trailing_empty :
    loadLines (joinLines [['a'], []]) ≠ [['a'], []] := by decide

/-- Witness for `save_load_roundtrip` at the buffer `["a", "b"]`. -/
theorem save_load_roundtrip_witness :
    loadLines (joinLines [['a'], ['b']]) = [['a'], ['b']] :=
  save_load_roundtrip [['a'], ['b']] (by decide) (by decide)
    (Or.inr (by decide))

/-! ### Editor state and operations -/

/-- Control location of the session: inside the `main` loop (line 181),
blocked in `prompt_save`'s key loop (lines 153-163), or exited (after
`break`, line 191, and the final-save check, lines 219-220).  The nested
blocking read of `prompt_save` is flattened into this explicit location. -/
inductive Phase where
  | top
  | prompt
  | done
deriving DecidableEq

/-- The fields of `TinyconfEditor` relevant to the editing core
(`__init__`, lines 12-24), plus `phase` (control location, see `Phase`)
and `saves`, a ghost log of every buffer handed to the save collaborator
(each `f.write` performed by `save_file`).  The curses screen, colors and
the unused slash-flag field (line 24) are omitted. -/
structure Ed where
  buffer : List (List Char)
  cursor_y : Int
  cursor_x : Int
  scroll_offset : Int
  filepath : Option (List Char)
  status : String
  status_timer : Int
  unsaved : Bool
  command_mode : Bool
  command_input : List Char
  phase : Phase
  saves : List (List (List Char))
deriving DecidableEq

/-- Python `self.buffer[i]` (valid for the proven invariant range
`0 ≤ i < len`; Python would wrap or raise outside it). -/
def lineAt (b : List (List Char)) (i : Int) : List Char :=
  b.getD i.toNat []

/-- Python `chr` on a key code in `[0, 256)`. -/
def chrM (n : Int) : Char := Char.ofNat n.toNat

def KEY_DOWN : Int := 258
def KEY_UP : Int := 259
def KEY_LEFT : Int := 260
def KEY_RIGHT : Int := 261
def KEY_BACKSPACE : Int := 263
def KEY_ENTER : Int := 343
def KEY_MOUSE : Int := 409

/-- Python truthiness of `self.filepath` (`None` and `""` are falsy). -/
def hasPath (s : Ed) : Bool :=
  match s.filepath with
  | some p => ¬ p.isEmpty
  | none => false

/-- Lines 96-100: `insert` splices `ch` into the current line at the
cursor column, advances the column, sets the dirty flag. -/
def insert (s : Ed) (ch : Char) : Ed :=
  let line := lineAt s.buffer s.cursor_y
  { s with
    buffer := s.buffer.set s.cursor_y.toNat
      (line.take s.cursor_x.toNat ++ ch :: line.drop s.cursor_x.toNat),
    cursor_x := s.cursor_x + 1,
    unsaved := true }

/-- Lines 102-113: `backspace` deletes in-line when `cursor_x > 0`, merges
the current line into the previous one when `cursor_x == 0 < cursor_y`,
and always sets the dirty flag (line 113 runs unconditionally). -/
def backspace (s : Ed) : Ed :=
  let s' :=
    if 0 < s.cursor_x then
      let line := lineAt s.buffer s.cursor_y
      { s with
        buffer := s.buffer.set s.cursor_y.toNat
          (line.take (s.cursor_x - 1).toNat ++ line.drop s.cursor_x.toNat),
        cursor_x := s.cursor_x - 1 }
    else if 0 < s.cursor_y then
      let prev := lineAt s.buffer (s.cursor_y - 1)
      { s with
        cursor_x := (prev.length : Int),
        buffer := (s.buffer.set (s.cursor_y - 1).toNat
            (prev ++ lineAt s.buffer s.cursor_y)).eraseIdx s.cursor_y.toNat,
        cursor_y := s.cursor_y - 1 }
    else s
  { s' with unsaved := true }

/-- Lines 115-121: `newline` truncates the current line at the cursor and
inserts the suffix as a new following line; cursor moves to its start. -/
def newline (s : Ed) : Ed :=
  let line := lineAt s.buffer s.cursor_y
  { s with
    buffer := (s.buffer.set s.cursor_y.toNat
        (line.take s.cursor_x.toNat)).insertIdx (s.cursor_y + 1).toNat
        (line.drop s.cursor_x.toNat),
    cursor_y := s.cursor_y + 1,
    cursor_x := 0,
    unsaved := true }

/-- Lines 123-140: `move_cursor` handles the four arrow keys, with
left/right wrapping across line boundaries, then re-clamps the column to
the (possibly new) current line's length (line 140). -/
def move_cursor (s : Ed) (key : Int) : Ed :=
  let s :=
    if key = KEY_UP ∧ 0 < s.cursor_y then
      { s with cursor_y := s.cursor_y - 1 }
    else if key = KEY_DOWN ∧ s.cursor_y < (s.buffer.length : Int) - 1 then
      { s with cursor_y := s.cursor_y + 1 }
    else if key = KEY_LEFT then
      if 0 < s.cursor_x then { s with cursor_x := s.cursor_x - 1 }
      else if 0 < s.cursor_y then
        { s with cursor_y := s.cursor_y - 1,
                 cursor_x := ((lineAt s.buffer (s.cursor_y - 1)).length : Int) }
      else s
    else if key = KEY_RIGHT then
      if s.cursor_x < ((lineAt s.buffer s.cursor_y).length : Int) then
        { s with cursor_x := s.cursor_x + 1 }
      else if s.cursor_y < (s.buffer.length : Int) - 1 then
        { s with cursor_y := s.cursor_y + 1, cursor_x := 0 }
      else s
    else s
  { s with cursor_x := min s.cursor_x ((lineAt s.buffer s.cursor_y).length : Int) }

/-- Lines 142-148: `save_file` — only when a (truthy) filepath exists —
hands the buffer to the save collaborator (recorded in the `saves` ghost
log), clears the dirty flag and posts an ephemeral status. -/
def save_file (s : Ed) : Ed :=
  if hasPath s then
    { s with
      saves := s.saves ++ [s.buffer],
      unsaved := false,
      status := "File saved.",
      status_timer := 20 }
  else s

/-- Lines 55-61 of `draw`: clamp the scroll offset and row globally, then
scroll to keep the cursor inside the `vh`-row window ("reconcile"). -/
def reconcile (vh : Int) (s : Ed) : Ed :=
  let so := min s.scroll_offset (max 0 ((s.buffer.length : Int) - vh))
  let cy := max 0 (min s.cursor_y ((s.buffer.length : Int) - 1))
  let so := if cy < so then cy
            else if so + vh ≤ cy then cy - vh + 1
            else so
  { s with scroll_offset := so, cursor_y := cy }

/-- State mutations of one `draw` call on a screen of height `h`
(`visible_height = h - 1`, line 53): `reconcile`, then the cursor-column
clamp of line 82. -/
def drawState (h : Int) (s : Ed) : Ed :=
  let s := reconcile (h - 1) s
  { s with cursor_x := min s.cursor_x ((lineAt s.buffer s.cursor_y).length : Int) }

/-- Lines 183-186: the status countdown decrements once per loop
iteration, resetting the message when it reaches zero. -/
def tickStatus (s : Ed) : Ed :=
  if 0 < s.status_timer then
    { s with
      status_timer := s.status_timer - 1,
      status := if s.status_timer - 1 = 0 then
          "COMMAND MODE: type /q to quit, /s to save"
        else s.status }
  else s

/-- Whitespace stripped by Python `str.strip()` for characters in the
`chr(0..255)` range a command string can contain. -/
def pyIsSpace (c : Char) : Bool :=
  c = ' ' || c = '\t' || c = '\n' || c = '\x0b' || c = '\x0c' || c = '\r' ||
  c = '\x1c' || c = '\x1d' || c = '\x1e' || c = '\x1f' || c = '\x85' ||
  c = '\xa0'

/-- Python `str.strip()`: drop whitespace from both ends. -/
def pyStrip (s : List Char) : List Char :=
  ((s.dropWhile pyIsSpace).reverse.dropWhile pyIsSpace).reverse

/-- Lines 219-220: after the `main` loop exits, one final save happens if a
(truthy) file target exists and the dirty flag is still set. -/
def finalize (s : Ed) : Ed :=
  if hasPath s ∧ s.unsaved then save_file s else s

/-- Lines 150-163 (`prompt_save`'s key loop, flattened): Escape cancels
(status per lines 156-157, then `handle_command`'s fall-through reset of
the command state, lines 174-175); `y`/`Y` saves then exits; `n`/`N`
exits; every exit runs the final-save check of lines 219-220; any other
key is ignored.  Key codes: Escape 27, `y` 121, `Y` 89, `n` 110, `N` 78. -/
def promptStep (s : Ed) (key : Int) : Ed :=
  if key = 27 then
    { s with
      status := "Canceled.",
      status_timer := 20,
      command_input := [],
      command_mode := false,
      phase := Phase.top }
  else if key = 121 ∨ key = 89 then
    finalize { (save_file s) with phase := Phase.done }
  else if key = 110 ∨ key = 78 then
    finalize { s with phase := Phase.done }
  else s

/-- Lines 165-176: evaluate the stripped command string.  `"/"` inserts a
literal slash; `"q"` exits at once when not dirty (loop `break`, then the
final-save check) and otherwise enters the save prompt (`prompt_save` sets
its status and draws once, lines 151-152, on the `h`-row screen); `"s"`
saves; anything else is silently discarded.  Except on the paths that exit
or enter the prompt, the command state is reset (lines 174-175). -/
def handle_command (h : Int) (s : Ed) : Ed :=
  let cmd := pyStrip s.command_input
  if cmd = ['/'] then
    let s := insert s '/'
    { s with command_input := [], command_mode := false }
  else if cmd = ['q'] then
    if ¬ s.unsaved then finalize { s with phase := Phase.done }
    else drawState h
      { s with status := "Save before quitting? (y/N/esc)", phase := Phase.prompt }
  else if cmd = ['s'] then
    let s := save_file s
    { s with command_input := [], command_mode := false }
  else
    { s with command_input := [], command_mode := false }

/-- Lines 188-199: one key in command mode.  Enter (10/13) evaluates the
command, Escape (27) cancels, Backspace (curses code or 127) drops the
last character, any byte in `[0, 256)` is appended, everything else is
ignored. -/
def commandKey (h : Int) (s : Ed) (key : Int) : Ed :=
  if key = 10 ∨ key = 13 then handle_command h s
  else if key = 27 then { s with command_input := [], command_mode := false }
  else if key = KEY_BACKSPACE ∨ key = 127 then
    { s with command_input := s.command_input.dropLast }
  else if 0 ≤ key ∧ key < 256 then
    { s with command_input := s.command_input ++ [chrM key] }
  else s

/-- One input event: the screen height `h` read by this iteration's `draw`
(line 52), and the key.  A mouse event carries the height `hm` re-read at
line 212 together with the `getmouse` coordinates. -/
inductive KeyIn where
  | code (n : Int)
  | mouse (hm mx my : Int)
deriving DecidableEq

/-- Integer code `getch` yields for the event (`KEY_MOUSE` for a mouse). -/
def keyCode : KeyIn → Int
  | KeyIn.code n => n
  | KeyIn.mouse _ _ _ => KEY_MOUSE

structure Ev where
  h : Int
  k : KeyIn
deriving DecidableEq

/-- Lines 201-218: one key in normal mode.  `/` (47) enters command mode;
Backspace, Enter, the arrows and printable bytes dispatch to the editing
operations; a mouse click inside the text area moves the cursor to the
clicked line, clamped into its column range (lines 210-216). -/
def normalKey (s : Ed) (k : KeyIn) : Ed :=
  match k with
  | KeyIn.mouse hm mx my =>
    if my < hm - 1 then
      let line_idx := s.scroll_offset + my
      if 0 ≤ line_idx ∧ line_idx < (s.buffer.length : Int) then
        { s with
          cursor_y := line_idx,
          cursor_x := max 0 (min (mx - 5) ((lineAt s.buffer line_idx).length : Int)) }
      else s
    else s
  | KeyIn.code key =>
    if key = 47 then { s with command_mode := true, command_input := [] }
    else if key = KEY_BACKSPACE ∨ key = 127 then backspace s
    else if key = KEY_ENTER ∨ key = 10 then newline s
    else if key = KEY_UP ∨ key = KEY_DOWN ∨ key = KEY_LEFT ∨ key = KEY_RIGHT then
      move_cursor s key
    else if 0 ≤ key ∧ key < 256 then insert s (chrM key)
    else s

/-- One iteration of the session (lines 181-218): while the loop runs, a
`draw` (state part), the status tick, then dispatch by mode; while blocked
in `prompt_save`, its key loop; after exit, input is no longer read. -/
def iter (s : Ed) (e : Ev) : Ed :=
  match s.phase with
  | Phase.done => s
  | Phase.prompt => promptStep s (keyCode e.k)
  | Phase.top =>
    let s := drawState e.h s
    let s := tickStatus s
    if s.command_mode then commandKey e.h s (keyCode e.k)
    else normalKey s e.k

/-- Lines 12-28 of `__init__`: the initial state.  `contents` is the raw
text of the target file when the path is truthy and the file exists
(`none` otherwise), split per line 28. -/
def initEd (filepath : Option (List Char)) (contents : Option (List Char)) : Ed :=
  { buffer :=
      match contents with
      | none => [[]]
      | some cs => loadLines cs,
    cursor_y := 0,
    cursor_x := 0,
    scroll_offset := 0,
    filepath := filepath,
    status := "EXEC MODE: type /q to quit, /s to save",
    status_timer := 0,
    unsaved := false,
    command_mode := false,
    command_input := [],
    phase := Phase.top,
    saves := [] }

/-- The state after the session processes the given input events. -/
def run (filepath contents : Option (List Char)) (evs : List Ev) : Ed :=
  evs.foldl iter (initEd filepath contents)

/-! ### List helpers -/

theorem getD_set_self : ∀ (l : List α) (n : ℕ) (a d : α), n < l.length →
    (l.set n a).getD n d = a
  | _ :: _, 0, _, _, _ => rfl
  | _ :: cs, n + 1, a, d, h =>
    getD_set_self cs n a d (Nat.lt_of_succ_lt_succ h)

theorem getD_set_ne : ∀ (l : List α) (m n : ℕ) (a d : α), m ≠ n →
    (l.set m a).getD n d = l.getD n d
  | [], _, _, _, _, _ => rfl
  | _ :: _, 0, 0, _, _, h => absurd rfl h
  | _ :: _, 0, _ + 1, _, _, _ => rfl
  | _ :: _, _ + 1, 0, _, _, _ => rfl
  | _ :: cs, m + 1, n + 1, a, d, h =>
    getD_set_ne cs m n a d (fun hmn => h (congrArg Nat.succ hmn))

theorem getD_eraseIdx_lt : ∀ (l : List α) (n m : ℕ) (d : α), m < n →
    (l.eraseIdx n).getD m d = l.getD m d
  | [], _, _, _, _ => rfl
  | _ :: _, 0, m, _, h => absurd h (Nat.not_lt_zero m)
  | _ :: _, _ + 1, 0, _, _ => rfl
  | _ :: cs, n + 1, m + 1, d, h =>
    getD_eraseIdx_lt cs n m d (Nat.lt_of_succ_lt_succ h)

theorem getD_insertIdx_self : ∀ (l : List α) (n : ℕ) (a d : α), n ≤ l.length →
    (l.insertIdx n a).getD n d = a
  | _, 0, _, _, _ => rfl
  | _ :: cs, n + 1, a, d, h =>
    getD_insertIdx_self cs n a d (Nat.le_of_succ_le_succ h)
  | [], n + 1, _, _, h => absurd h (Nat.not_succ_le_zero n)

theorem set_erase_eq : ∀ (b : List α) (n : ℕ), n + 1 < b.length → ∀ m : α,
    (b.set n m).eraseIdx (n + 1) = b.take n ++ m :: b.drop (n + 2)
  | [], n, h, _ => absurd h (by simp)
  | c :: cs, 0, h, m => by
    simp only [List.set_cons_zero, List.eraseIdx_cons_succ, List.eraseIdx_cons_zero,
      List.take_zero, List.nil_append, List.drop_succ_cons, List.drop_one]
    cases cs <;> rfl
  | c :: cs, n + 1, h, m => by
    simp only [List.set_cons_succ, List.eraseIdx_cons_succ, List.take_succ_cons,
      List.drop_succ_cons, List.cons_append]
    rw [set_erase_eq cs n (by simpa using Nat.lt_of_succ_lt_succ h) m]

/-! ### Claims about single operations -/

/-- Concrete state used by the claim C6 counterexample and witness: buffer
`["ab"]`, cursor at `(0, 0)`, clean (dirty flag unset). -/
def ex6 : Ed :=
  { buffer := [['a', 'b']], cursor_y := 0, cursor_x := 0, scroll_offset := 0,
    filepath := none, status := "", status_timer := 0, unsaved := false,
    command_mode := false, command_input := [], phase := Phase.top, saves := [] }

/-- Claim C6 (counterexample): delete-backward at `(0, 0)` on a clean state
flips the dirty flag (line 113 runs unconditionally), so the flag does not
equal its value before the call. -/
theorem backspace_at_origin_dirty_changes :
    (backspace ex6).unsaved ≠ ex6.unsaved := by decide

/-- Claim C6 (amended): delete-backward with the cursor at row 0, column 0
leaves the buffer and the cursor unchanged, but always sets the dirty flag
to true (so the flag is unchanged only if it was already set). -/
theorem backspace_at_origin (s : Ed) (hx : s.cursor_x = 0) (hy : s.cursor_y = 0) :
    backspace s = { s with unsaved := true } := by
  unfold backspace
  rw [if_neg (by omega : ¬ 0 < s.cursor_x), if_neg (by omega : ¬ 0 < s.cursor_y)]

/-- Witness for `backspace_at_origin` at the state `ex6`. -/
theorem backspace_at_origin_witness :
    backspace ex6 = { ex6 with unsaved := true } :=
  backspace_at_origin ex6 rfl rfl

/-- Claim C7: delete-backward at column 0 of a row `> 0` replaces rows
`row-1` and `row` by their concatenation, removes row `row`, and puts the
cursor at `(row-1, length of the former row-1)`; the dirty flag is set. -/
theorem backspace_merges_lines (s : Ed) (hx : s.cursor_x = 0)
    (hy : 0 < s.cursor_y) (hlen : s.cursor_y < (s.buffer.length : Int)) :
    backspace s =
      { s with
        buffer := s.buffer.take (s.cursor_y.toNat - 1) ++
          (lineAt s.buffer (s.cursor_y - 1) ++ lineAt s.buffer s.cursor_y) ::
            s.buffer.drop (s.cursor_y.toNat + 1),
        cursor_y := s.cursor_y - 1,
        cursor_x := ((lineAt s.buffer (s.cursor_y - 1)).length : Int),
        unsaved := true } := by
  have hx' : ¬ 0 < s.cursor_x := by omega
  have hsub : (s.cursor_y - 1).toNat = s.cursor_y.toNat - 1 := by omega
  have hn1 : s.cursor_y.toNat - 1 + 1 = s.cursor_y.toNat := by omega
  have hn2 : s.cursor_y.toNat - 1 + 2 = s.cursor_y.toNat + 1 := by omega
  have hlt : s.cursor_y.toNat - 1 + 1 < s.buffer.length := by omega
  have hbuf :
      (s.buffer.set (s.cursor_y - 1).toNat
          (lineAt s.buffer (s.cursor_y - 1) ++
            lineAt s.buffer s.cursor_y)).eraseIdx s.cursor_y.toNat =
        s.buffer.take (s.cursor_y.toNat - 1) ++
          (lineAt s.buffer (s.cursor_y - 1) ++ lineAt s.buffer s.cursor_y) ::
            s.buffer.drop (s.cursor_y.toNat + 1) := by
    have h := set_erase_eq s.buffer (s.cursor_y.toNat - 1) hlt
      (lineAt s.buffer (s.cursor_y - 1) ++ lineAt s.buffer s.cursor_y)
    rw [hn1, hn2] at h
    rw [hsub, h]
  unfold backspace
  rw [if_neg hx', if_pos hy]
  dsimp only
  rw [hbuf]

/-- Concrete state used by the claim C7 witness: buffer `["ab", "cd"]`,
cursor at `(1, 0)`. -/
def ex7 : Ed :=
  { buffer := [['a', 'b'], ['c', 'd']], cursor_y := 1, cursor_x := 0,
    scroll_offset := 0, filepath := none, status := "", status_timer := 0,
    unsaved := false, command_mode := false, command_input := [],
    phase := Phase.top, saves := [] }

/-- Witness for `backspace_merges_lines`: buffer `["ab", "cd"]` with cursor
`(1, 0)` becomes `["abcd"]` with cursor `(0, 2)`. -/
theorem backspace_merges_lines_witness :
    backspace ex7 =
      { ex7 with
        buffer := ex7.buffer.take (ex7.cursor_y.toNat - 1) ++
          (lineAt ex7.buffer (ex7.cursor_y - 1) ++ lineAt ex7.buffer ex7.cursor_y) ::
            ex7.buffer.drop (ex7.cursor_y.toNat + 1),
        cursor_y := ex7.cursor_y - 1,
        cursor_x := ((lineAt ex7.buffer (ex7.cursor_y - 1)).length : Int),
        unsaved := true } :=
  backspace_merges_lines ex7 rfl (by decide) (by decide)

/-- Claim C10: cursor movement never edits — for every state and key,
`move_cursor` leaves every field except the cursor coordinates (in
particular the buffer and the dirty flag) exactly as it was. -/
theorem move_cursor_frame (s : Ed) (key : Int) :
    (move_cursor s key).buffer = s.buffer ∧
    (move_cursor s key).unsaved = s.unsaved ∧
    (move_cursor s key).scroll_offset = s.scroll_offset ∧
    (move_cursor s key).filepath = s.filepath ∧
    (move_cursor s key).status = s.status ∧
    (move_cursor s key).status_timer = s.status_timer ∧
    (move_cursor s key).command_mode = s.command_mode ∧
    (move_cursor s key).command_input = s.command_input ∧
    (move_cursor s key).phase = s.phase ∧
    (move_cursor s key).saves = s.saves := by
  unfold move_cursor
  dsimp only
  split_ifs <;>
    exact ⟨rfl, rfl, rfl, rfl, rfl, rfl, rfl, rfl, rfl, rfl⟩

/-- Concrete state used by the claim C9 counterexample: a one-line buffer
with cursor and scroll at the origin. -/
def ex9 : Ed :=
  { buffer := [[]], cursor_y := 0, cursor_x := 0, scroll_offset := 0,
    filepath := none, status := "", status_timer := 0, unsaved := false,
    command_mode := false, command_input := [], phase := Phase.top, saves := [] }

/-- Claim C9 (counterexample): with visible height 0 (a one-row screen,
`visible_height = h - 1`), a second reconcile run does change the state —
the first run scrolls to 1 via the follow-cursor branch, the second back
to 0 — so idempotence fails for that visible height. -/
theorem reconcile_not_idempotent_at_vh0 :
    reconcile 0 (reconcile 0 ex9) ≠ reconcile 0 ex9 := by decide

/-- Claim C9 (amended): for every state and every visible height of at
least one row, running `reconcile` twice with unchanged inputs produces
exactly the state of the first run. -/
theorem reconcile_idempotent (s : Ed) (vh : Int) (hvh : 1 ≤ vh) :
    reconcile vh (reconcile vh s) = reconcile vh s := by
  unfold reconcile
  dsimp only
  rw [Ed.mk.injEq]
  refine ⟨rfl, ?_, rfl, ?_, rfl, rfl, rfl, rfl, rfl, rfl, rfl, rfl⟩
  · omega
  · split_ifs <;> omega

/-- Witness for `reconcile_idempotent` at the state `ex9` with visible
height 1. -/
theorem reconcile_idempotent_witness :
    reconcile 1 (reconcile 1 ex9) = reconcile 1 ex9 :=
  reconcile_idempotent ex9 1 (by decide)

/-! ### Reachable-state invariant -/

/-- The positional invariant of the data model: non-empty buffer, cursor row
inside the buffer, cursor column between 0 and the current line's length,
non-negative scroll offset. -/
def Inv (s : Ed) : Prop :=
  0 < s.buffer.length ∧
  0 ≤ s.cursor_y ∧ s.cursor_y < (s.buffer.length : Int) ∧
  0 ≤ s.cursor_x ∧ s.cursor_x ≤ ((lineAt s.buffer s.cursor_y).length : Int) ∧
  0 ≤ s.scroll_offset

theorem inv_insert (s : Ed) (ch : Char) (h : Inv s) : Inv (insert s ch) := by
  obtain ⟨hb, hy0, hyl, hx0, hxl, hso⟩ := h
  have hyn : s.cursor_y.toNat < s.buffer.length := by omega
  have hxn : s.cursor_x.toNat ≤ (lineAt s.buffer s.cursor_y).length := by omega
  unfold Inv insert
  dsimp only
  simp only [List.length_set]
  unfold lineAt
  rw [getD_set_self _ _ _ _ hyn]
  refine ⟨hb, hy0, hyl, by omega, ?_, hso⟩
  rw [List.length_append, List.length_take, List.length_cons, List.length_drop]
  unfold lineAt at hxn hxl
  omega

theorem inv_backspace (s : Ed) (h : Inv s) : Inv (backspace s) := by
  obtain ⟨hb, hy0, hyl, hx0, hxl, hso⟩ := h
  have hyn : s.cursor_y.toNat < s.buffer.length := by omega
  unfold backspace
  dsimp only
  split_ifs with h1 h2
  · have hxn : s.cursor_x.toNat ≤ (lineAt s.buffer s.cursor_y).length := by omega
    unfold Inv
    dsimp only
    simp only [List.length_set]
    unfold lineAt
    rw [getD_set_self _ _ _ _ hyn]
    refine ⟨hb, hy0, hyl, by omega, ?_, hso⟩
    rw [List.length_append, List.length_take, List.length_drop]
    unfold lineAt at hxn hxl
    omega
  · have hyn1 : (s.cursor_y - 1).toNat < s.buffer.length := by omega
    have hne : (s.cursor_y - 1).toNat ≠ s.cursor_y.toNat := by omega
    have hlenerase :
        ((s.buffer.set (s.cursor_y - 1).toNat
            (lineAt s.buffer (s.cursor_y - 1) ++
              lineAt s.buffer s.cursor_y)).eraseIdx s.cursor_y.toNat).length =
          s.buffer.length - 1 := by
      simp only [List.length_eraseIdx, List.length_set]
      rw [if_pos hyn]
    have hline :
        lineAt ((s.buffer.set (s.cursor_y - 1).toNat
            (lineAt s.buffer (s.cursor_y - 1) ++
              lineAt s.buffer s.cursor_y)).eraseIdx s.cursor_y.toNat)
          (s.cursor_y - 1) =
          lineAt s.buffer (s.cursor_y - 1) ++ lineAt s.buffer s.cursor_y := by
      unfold lineAt
      rw [getD_eraseIdx_lt _ _ _ _ (by omega), getD_set_self _ _ _ _ hyn1]
    unfold Inv
    dsimp only
    rw [hlenerase, hline]
    rw [List.length_append]
    refine ⟨by omega, by omega, by omega, by omega, by omega, hso⟩
  · exact ⟨hb, hy0, hyl, hx0, hxl, hso⟩

theorem inv_newline (s : Ed) (h : Inv s) : Inv (newline s) := by
  obtain ⟨hb, hy0, hyl, hx0, hxl, hso⟩ := h
  have hyn : s.cursor_y.toNat < s.buffer.length := by omega
  unfold Inv newline lineAt
  dsimp only
  have hidx : (s.cursor_y + 1).toNat ≤
      (s.buffer.set s.cursor_y.toNat
        ((s.buffer.getD s.cursor_y.toNat []).take s.cursor_x.toNat)).length := by
    simp only [List.length_set]; omega
  rw [List.length_insertIdx _ _ hidx, getD_insertIdx_self _ _ _ _ hidx]
  simp only [List.length_set]
  exact ⟨by omega, by omega, by omega, by omega, by omega, hso⟩

theorem inv_move_cursor (s : Ed) (key : Int) (h : Inv s) : Inv (move_cursor s key) := by
  obtain ⟨hb, hy0, hyl, hx0, hxl, hso⟩ := h
  unfold Inv move_cursor
  dsimp only
  split_ifs <;>
    (refine ⟨hb, ?_, ?_, ?_, ?_, hso⟩ <;> dsimp only <;> omega)

theorem inv_reconcile (vh : Int) (s : Ed) (h : Inv s) : Inv (reconcile vh s) := by
  obtain ⟨hb, hy0, hyl, hx0, hxl, hso⟩ := h
  have hcy : max 0 (min s.cursor_y ((s.buffer.length : Int) - 1)) = s.cursor_y := by
    omega
  unfold Inv reconcile
  dsimp only
  rw [hcy]
  exact ⟨hb, hy0, hyl, hx0, hxl, by split_ifs <;> omega⟩

theorem inv_drawState (h : Int) (s : Ed) (hI : Inv s) : Inv (drawState h s) := by
  obtain ⟨hb, hy0, hyl, hx0, hxl, hso⟩ := inv_reconcile (h - 1) s hI
  unfold Inv drawState
  dsimp only
  exact ⟨hb, hy0, hyl, by omega, by omega, hso⟩

theorem inv_tickStatus (s : Ed) (h : Inv s) : Inv (tickStatus s) := by
  unfold tickStatus
  split_ifs <;> exact h

theorem inv_save_file (s : Ed) (h : Inv s) : Inv (save_file s) := by
  unfold save_file
  split_ifs <;> exact h

theorem inv_finalize (s : Ed) (h : Inv s) : Inv (finalize s) := by
  unfold finalize
  split_ifs with h1
  · exact inv_save_file s h
  · exact h

theorem inv_promptStep (s : Ed) (key : Int) (h : Inv s) : Inv (promptStep s key) := by
  unfold promptStep
  split_ifs
  · exact h
  · exact inv_finalize _ (inv_save_file s h)
  · exact inv_finalize _ h
  · exact h

theorem inv_handle_command (hh : Int) (s : Ed) (h : Inv s) : Inv (handle_command hh s) := by
  unfold handle_command
  dsimp only
  split_ifs
  · exact inv_insert s '/' h
  · exact inv_drawState hh _ h
  · exact inv_finalize _ h
  · exact inv_save_file s h
  · exact h

theorem inv_commandKey (hh : Int) (s : Ed) (key : Int) (h : Inv s) :
    Inv (commandKey hh s key) := by
  unfold commandKey
  split_ifs
  · exact inv_handle_command hh s h
  · exact h
  · exact h
  · exact h
  · exact h

theorem inv_normalKey (s : Ed) (k : KeyIn) (h : Inv s) : Inv (normalKey s k) := by
  cases k with
  | mouse hm mx my =>
    obtain ⟨hb, hy0, hyl, hx0, hxl, hso⟩ := h
    unfold Inv normalKey
    dsimp only
    split_ifs
    · refine ⟨hb, ?_, ?_, ?_, ?_, hso⟩ <;> dsimp only <;> omega
    · exact ⟨hb, hy0, hyl, hx0, hxl, hso⟩
    · exact ⟨hb, hy0, hyl, hx0, hxl, hso⟩
  | code key =>
    unfold normalKey
    dsimp only
    split_ifs
    · exact h
    · exact inv_backspace s h
    · exact inv_newline s h
    · exact inv_move_cursor s key h
    · exact inv_insert s _ h
    · exact h

theorem inv_iter (s : Ed) (e : Ev) (h : Inv s) : Inv (iter s e) := by
  unfold iter
  split
  · exact h
  · exact inv_promptStep s _ h
  · dsimp only
    have h1 : Inv (tickStatus (drawState e.h s)) :=
      inv_tickStatus _ (inv_drawState e.h s h)
    split_ifs
    · exact inv_commandKey e.h _ _ h1
    · exact inv_normalKey _ _ h1

theorem initEd_buffer_pos (fp contents : Option (List Char)) :
    0 < (initEd fp contents).buffer.length := by
  cases contents with
  | none => simp [initEd]
  | some cs =>
    simp only [initEd, loadLines]
    split_ifs with h
    · simp
    · exact List.length_pos.mpr h

theorem inv_initEd (fp contents : Option (List Char)) : Inv (initEd fp contents) := by
  have hb := initEd_buffer_pos fp contents
  have hcy : (initEd fp contents).cursor_y = 0 := by cases contents <;> rfl
  have hcx : (initEd fp contents).cursor_x = 0 := by cases contents <;> rfl
  have hsc : (initEd fp contents).scroll_offset = 0 := by cases contents <;> rfl
  refine ⟨hb, ?_, ?_, ?_, ?_, ?_⟩
  · rw [hcy]
  · rw [hcy]; exact_mod_cast hb
  · rw [hcx]
  · rw [hcx]; omega
  · rw [hsc]

theorem inv_foldl : ∀ (evs : List Ev) (s : Ed), Inv s → Inv (evs.foldl iter s)
  | [], _, h => h
  | e :: es, s, h => inv_foldl es (iter s e) (inv_iter s e h)

theorem inv_run (fp contents : Option (List Char)) (evs : List Ev) :
    Inv (run fp contents evs) :=
  inv_foldl evs (initEd fp contents) (inv_initEd fp contents)

/-- Claim C1: in every reachable state — after processing any sequence of
input events from the initial state — the cursor satisfies
`0 ≤ cursor.row < lineCount` and `0 ≤ cursor.col ≤ lineLength(cursor.row)`
(column equal to the line length being the insertion point after the last
character). -/
theorem cursor_always_in_bounds (fp contents : Option (List Char)) (evs : List Ev) :
    0 ≤ (run fp contents evs).cursor_y ∧
    (run fp contents evs).cursor_y < ((run fp contents evs).buffer.length : Int) ∧
    0 ≤ (run fp contents evs).cursor_x ∧
    (run fp contents evs).cursor_x ≤
      ((lineAt (run fp contents evs).buffer (run fp contents evs).cursor_y).length : Int) := by
  obtain ⟨_, hy0, hyl, hx0, hxl, _⟩ := inv_run fp contents evs
  exact ⟨hy0, hyl, hx0, hxl⟩

/-- Claim C8: the line buffer is never empty in any reachable state — it
always contains at least one (possibly empty) line. -/
theorem buffer_never_empty (fp contents : Option (List Char)) (evs : List Ev) :
    (run fp contents evs).buffer ≠ [] :=
  List.ne_nil_of_length_pos (inv_run fp contents evs).1

theorem reconcile_post (vh : Int) (s : Ed) (hvh : 1 ≤ vh) (h : Inv s) :
    0 ≤ (reconcile vh s).scroll_offset ∧
    (reconcile vh s).scroll_offset ≤
      max 0 (((reconcile vh s).buffer.length : Int) - vh) ∧
    (reconcile vh s).scroll_offset ≤ (reconcile vh s).cursor_y ∧
    (reconcile vh s).cursor_y < (reconcile vh s).scroll_offset + vh := by
  obtain ⟨hb, hy0, hyl, hx0, hxl, hso⟩ := h
  unfold reconcile
  dsimp only
  refine ⟨?_, ?_, ?_, ?_⟩ <;> split_ifs <;> omega

/-- Claim C2: after `reconcile` (the clamping of `draw`, lines 55-61) runs
on any reachable state with a visible height of at least one row,
`0 ≤ scroll_offset ≤ max 0 (lineCount − visibleHeight)` and
`scroll_offset ≤ cursor.row < scroll_offset + visibleHeight` — the cursor
is inside the visible window however much the buffer shrank. -/
theorem reconcile_window_inv (fp contents : Option (List Char)) (evs : List Ev)
    (vh : Int) (hvh : 1 ≤ vh) :
    0 ≤ (reconcile vh (run fp contents evs)).scroll_offset ∧
    (reconcile vh (run fp contents evs)).scroll_offset ≤
      max 0 (((reconcile vh (run fp contents evs)).buffer.length : Int) - vh) ∧
    (reconcile vh (run fp contents evs)).scroll_offset ≤
      (reconcile vh (run fp contents evs)).cursor_y ∧
    (reconcile vh (run fp contents evs)).cursor_y <
      (reconcile vh (run fp contents evs)).scroll_offset + vh :=
  reconcile_post vh (run fp contents evs) hvh (inv_run fp contents evs)

/-- Witness for `reconcile_window_inv`: the initial pathless session after
no events, reconciled at visible height 1. -/
theorem reconcile_window_inv_witness :
    0 ≤ (reconcile 1 (run none none [])).scroll_offset ∧
    (reconcile 1 (run none none [])).scroll_offset ≤
      max 0 (((reconcile 1 (run none none [])).buffer.length : Int) - 1) ∧
    (reconcile 1 (run none none [])).scroll_offset ≤
      (reconcile 1 (run none none [])).cursor_y ∧
    (reconcile 1 (run none none [])).cursor_y <
      (reconcile 1 (run none none [])).scroll_offset + 1 :=
  reconcile_window_inv none none [] 1 (by norm_num)

/-! ### Command evaluation claims -/

theorem drawState_command_mode (h : Int) (s : Ed) :
    (drawState h s).command_mode = s.command_mode := rfl

theorem drawState_command_input (h : Int) (s : Ed) :
    (drawState h s).command_input = s.command_input := rfl

theorem drawState_filepath (h : Int) (s : Ed) :
    (drawState h s).filepath = s.filepath := rfl

theorem drawState_saves (h : Int) (s : Ed) : (drawState h s).saves = s.saves := rfl

theorem drawState_buffer (h : Int) (s : Ed) : (drawState h s).buffer = s.buffer := rfl

theorem tickStatus_command_mode (s : Ed) :
    (tickStatus s).command_mode = s.command_mode := by
  unfold tickStatus; split_ifs <;> rfl

theorem tickStatus_command_input (s : Ed) :
    (tickStatus s).command_input = s.command_input := by
  unfold tickStatus; split_ifs <;> rfl

theorem tickStatus_filepath (s : Ed) : (tickStatus s).filepath = s.filepath := by
  unfold tickStatus; split_ifs <;> rfl

theorem tickStatus_saves (s : Ed) : (tickStatus s).saves = s.saves := by
  unfold tickStatus; split_ifs <;> rfl

theorem tickStatus_buffer (s : Ed) : (tickStatus s).buffer = s.buffer := by
  unfold tickStatus; split_ifs <;> rfl

theorem iter_top (s : Ed) (e : Ev) (hph : s.phase = Phase.top) :
    iter s e =
      if (tickStatus (drawState e.h s)).command_mode then
        commandKey e.h (tickStatus (drawState e.h s)) (keyCode e.k)
      else normalKey (tickStatus (drawState e.h s)) e.k := by
  unfold iter
  rw [hph]

theorem handle_command_s (hh : Int) (s : Ed)
    (hci : pyStrip s.command_input = ['s']) :
    handle_command hh s =
      { save_file s with command_input := [], command_mode := false } := by
  unfold handle_command
  dsimp only
  rw [hci, if_neg (by decide), if_neg (by decide), if_pos rfl]

/-- Concrete state used by the claim C4 counterexample: command mode with
the typed command string `"save"`, a dirty buffer and a file target. -/
def ex4save : Ed :=
  { buffer := [['h', 'i']], cursor_y := 0, cursor_x := 0, scroll_offset := 0,
    filepath := some ['f'], status := "", status_timer := 0, unsaved := true,
    command_mode := true, command_input := ['s', 'a', 'v', 'e'],
    phase := Phase.top, saves := [] }

/-- Claim C4 (counterexample): pressing Enter on the command string `"save"`
does not invoke the save collaborator (the `saves` log stays empty) and
does not clear the dirty flag — the vocabulary of `handle_command`
(lines 165-176) is `/`, `q`, `s`, so `"save"` is silently discarded. -/
theorem command_save_word_discarded :
    (iter ex4save ⟨5, KeyIn.code 10⟩).saves = [] ∧
    (iter ex4save ⟨5, KeyIn.code 10⟩).unsaved = true := by decide

/-- Claim C4 (amended): the save command string is `"s"`, not `"save"`:
in command mode, Enter on a command that strips to `"s"` hands the current
buffer lines to the save collaborator and clears the dirty flag (when a
file target exists), leaving command mode. -/
theorem command_s_saves (s : Ed) (hh : Int)
    (hph : s.phase = Phase.top)
    (hcm : s.command_mode = true)
    (hci : pyStrip s.command_input = ['s'])
    (hfp : hasPath s = true) :
    (iter s ⟨hh, KeyIn.code 10⟩).saves = s.saves ++ [s.buffer] ∧
    (iter s ⟨hh, KeyIn.code 10⟩).unsaved = false ∧
    (iter s ⟨hh, KeyIn.code 10⟩).command_mode = false := by
  have hcm' : (tickStatus (drawState hh s)).command_mode = true := by
    rw [tickStatus_command_mode, drawState_command_mode]; exact hcm
  have hci' : pyStrip (tickStatus (drawState hh s)).command_input = ['s'] := by
    rw [tickStatus_command_input, drawState_command_input]; exact hci
  have hfp' : hasPath (tickStatus (drawState hh s)) = true := by
    unfold hasPath
    rw [tickStatus_filepath, drawState_filepath]
    exact hfp
  rw [iter_top s ⟨hh, KeyIn.code 10⟩ hph]
  dsimp only
  rw [if_pos hcm']
  unfold commandKey
  dsimp only [keyCode]
  rw [if_pos (Or.inl (rfl : (10 : Int) = 10)),
    handle_command_s hh _ hci']
  unfold save_file
  rw [if_pos hfp']
  dsimp only
  rw [tickStatus_saves, drawState_saves, tickStatus_buffer, drawState_buffer]
  exact ⟨rfl, rfl, rfl⟩

/-- Concrete state used by the claim C4 witness: command mode with the
typed command string `"s"`, a dirty buffer and a file target. -/
def ex4s : Ed :=
  { buffer := [['h', 'i']], cursor_y := 0, cursor_x := 0, scroll_offset := 0,
    filepath := some ['f'], status := "", status_timer := 0, unsaved := true,
    command_mode := true, command_input := ['s'], phase := Phase.top,
    saves := [] }

/-- Witness for `command_s_saves` at the state `ex4s`. -/
theorem command_s_saves_witness :
    (iter ex4s ⟨5, KeyIn.code 10⟩).saves = ex4s.saves ++ [ex4s.buffer] ∧
    (iter ex4s ⟨5, KeyIn.code 10⟩).unsaved = false ∧
    (iter ex4s ⟨5, KeyIn.code 10⟩).command_mode = false :=
  command_s_saves ex4s 5 rfl rfl (by decide) rfl

/-- Claim C3 (code-bug demonstration): a session on file `"f"` with one
unsaved edit, given the events `x`, `/`, `q`, Enter, `n` — i.e. answering
the ConfirmSave prompt with `n` ("quit without saving") — nevertheless
hands the buffer to the save collaborator exactly once before exiting:
`prompt_save` returns leaving the dirty flag set, and the post-loop check
(lines 219-220) then performs a final save.  The claim (and the prompt's
own `y/N` wording) says `n` exits without saving. -/
theorem quit_discard_still_saves :
    (run (some ['f']) (some ['h', 'i'])
        [⟨5, KeyIn.code 120⟩, ⟨5, KeyIn.code 47⟩, ⟨5, KeyIn.code 113⟩,
         ⟨5, KeyIn.code 10⟩, ⟨5, KeyIn.code 110⟩]).saves = [[['x', 'h', 'i']]] ∧
    (run (some ['f']) (some ['h', 'i'])
        [⟨5, KeyIn.code 120⟩, ⟨5, KeyIn.code 47⟩, ⟨5, KeyIn.code 113⟩,
         ⟨5, KeyIn.code 10⟩, ⟨5, KeyIn.code 110⟩]).phase = Phase.done := by
  decide
